import Mathlib

/-!
# Hazel.Windows.AesBcrypt: the native AES-ECB context wrapper

A shallow embedding of `src/Hazel.Windows.AesBcrypt/AesBcrypt.cpp`.

* Process memory is a map from byte addresses to bytes; a `uint8_t*` is an
  address and `p + off` is integer addition.
* The `AesBcrypt` objects live in an object heap keyed by address; `0` is
  `nullptr`.  What a read through a pointer with no live object yields is
  indeterminate in C++: the model takes it from `World.freed`, which no operation
  sets and no statement constrains.
* The platform provider (bcrypt) is a collaborator outside this code.  Its bookkeeping
  is an explicit table of open algorithm handles and open key handles plus a
  log of every call it receives; everything it is free to decide (the
  `NTSTATUS` of each call, the bytes and the byte count an encryption produces)
  is taken from a `Provider` oracle.
-/

namespace HazelAes

/-! ## Machine integers -/

/-- Conversion of an `int` argument to a `ULONG` parameter (32 bits, modular). -/
def toULONG (n : Int) : Nat := (n % 4294967296).toNat

/-- Conversion of a `ULONG` to the `int` return value (two's complement). -/
def toInt32 (n : Nat) : Int :=
  if n % 4294967296 < 2147483648 then ((n % 4294967296 : Nat) : Int)
  else ((n % 4294967296 : Nat) : Int) - 4294967296

/-- The macro `NT_SUCCESS(status)`: `static_cast<NTSTATUS>(status) >= 0`. -/
def NT_SUCCESS (status : Int) : Bool := decide (0 ≤ status)

/-! ## Byte memory -/

/-- The `n` bytes stored at addresses `p, p+1, ..., p+n-1`. -/
def readBytes (mem : Int → Nat) (p : Int) (n : Nat) : List Nat :=
  (List.range n).map (fun (i : Nat) => mem (p + (i : Int)))

/-- Memory after storing `bytes` at addresses `p, p+1, ...`. -/
def writeBytes (mem : Int → Nat) (p : Int) (bytes : List Nat) : Int → Nat :=
  fun a => if p ≤ a ∧ a < p + (bytes.length : Int) then bytes.getD (a - p).toNat 0 else mem a

/-! ## The provider (bcrypt) -/

/-- A call received by the provider, with the arguments it was given. -/
inductive Call where
  /-- The call `BCryptOpenAlgorithmProvider(&h, BCRYPT_AES_ALGORITHM, pszImplementation, dwFlags)`. -/
  | openAlgorithmProvider (pszImplementation : Nat) (dwFlags : Nat)
  /-- The call `BCryptSetProperty(hObject, BCRYPT_CHAINING_MODE, BCRYPT_CHAIN_MODE_ECB, .., dwFlags)`. -/
  | setChainingModeECB (hObject : Nat) (dwFlags : Nat)
  /-- The call `BCryptGenerateSymmetricKey(hAlgorithm, &k, pbKeyObject, cbKeyObject, pbSecret, cbSecret, dwFlags)`;
  `secret` is the `cbSecret` bytes the provider finds at `pbSecret`. -/
  | generateSymmetricKey (hAlgorithm : Nat) (pbKeyObject : Nat) (cbKeyObject : Nat)
      (pbSecret : Int) (cbSecret : Nat) (secret : List Nat) (dwFlags : Nat)
  /-- The call `BCryptEncrypt(hKey, pbInput, cbInput, pPaddingInfo, pbIV, cbIV, pbOutput, cbOutput, &n, dwFlags)`. -/
  | encrypt (hKey : Nat) (pbInput : Int) (cbInput : Nat) (pPaddingInfo : Nat) (pbIV : Nat)
      (cbIV : Nat) (pbOutput : Int) (cbOutput : Nat) (dwFlags : Nat)
  /-- The call `BCryptDestroyKey(hKey)`. -/
  | destroyKey (hKey : Nat)
  /-- The call `BCryptCloseAlgorithmProvider(hAlgorithm, dwFlags)`. -/
  | closeAlgorithmProvider (hAlgorithm : Nat) (dwFlags : Nat)
  deriving DecidableEq

/-- The provider's bookkeeping: the open algorithm handles, the open key handles
with the secret each was generated from, and the calls received so far (oldest first). -/
structure ProviderState where
  algs : List Nat
  keys : List (Nat × List Nat)
  log : List Call

/-- What one encryption request produces: the status, the value stored in
`*pcbResult`, and the bytes stored from `pbOutput` on. -/
structure EncryptOutcome where
  status : Int
  cbResult : Nat
  written : List Nat

/-- Everything the provider is free to decide.  The three statuses of the
construction calls may depend on the whole provider state (so also on the history
of calls); the encryption transform is a function of the key handle, of the
secret the table holds for that handle (`none` when the handle is not open) and of
the input bytes. -/
structure Provider where
  openAlgorithm : ProviderState → Int
  setProperty : ProviderState → Nat → Int
  generateSymmetricKey : ProviderState → Nat → List Nat → Int
  transform : Nat → Option (List Nat) → List Nat → EncryptOutcome

/-- A handle value that is not null and not open in either table. -/
def freshHandle (s : ProviderState) : Nat :=
  (s.algs ++ s.keys.map Prod.fst).foldr max 0 + 1

/-- The secret of an open key handle. -/
def keySecret (s : ProviderState) (hKey : Nat) : Option (List Nat) :=
  (s.keys.find? (fun e => e.1 == hKey)).map Prod.snd

/-- Model of `BCryptOpenAlgorithmProvider`: returns the status, the value of
`*phAlgorithm` after the call (a fresh open handle on success, the old value on
failure) and the new provider state. -/
def BCryptOpenAlgorithmProvider (P : Provider) (s : ProviderState) (phAlgorithm : Nat)
    (pszImplementation dwFlags : Nat) : Int × Nat × ProviderState :=
  let status := P.openAlgorithm s
  let log := s.log ++ [Call.openAlgorithmProvider pszImplementation dwFlags]
  if NT_SUCCESS status then
    (status, freshHandle s, { algs := freshHandle s :: s.algs, keys := s.keys, log := log })
  else
    (status, phAlgorithm, { algs := s.algs, keys := s.keys, log := log })

/-- Model of `BCryptSetProperty` for the chaining-mode property. -/
def BCryptSetProperty (P : Provider) (s : ProviderState) (hObject : Nat) (dwFlags : Nat) :
    Int × ProviderState :=
  (P.setProperty s hObject,
    { algs := s.algs, keys := s.keys, log := s.log ++ [Call.setChainingModeECB hObject dwFlags] })

/-- Model of `BCryptGenerateSymmetricKey`: the provider reads `cbSecret` bytes at
`pbSecret`; on success `*phKey` is a fresh open key handle bound to those bytes,
on failure `*phKey` keeps its old value. -/
def BCryptGenerateSymmetricKey (P : Provider) (s : ProviderState) (mem : Int → Nat)
    (hAlgorithm : Nat) (phKey : Nat) (pbKeyObject cbKeyObject : Nat) (pbSecret : Int)
    (cbSecret : Nat) (dwFlags : Nat) : Int × Nat × ProviderState :=
  let secret := readBytes mem pbSecret cbSecret
  let status := P.generateSymmetricKey s hAlgorithm secret
  let log := s.log ++
    [Call.generateSymmetricKey hAlgorithm pbKeyObject cbKeyObject pbSecret cbSecret secret dwFlags]
  if NT_SUCCESS status then
    (status, freshHandle s, { algs := s.algs, keys := (freshHandle s, secret) :: s.keys, log := log })
  else
    (status, phKey, { algs := s.algs, keys := s.keys, log := log })

/-- Model of `BCryptEncrypt`: the provider reads `cbInput` bytes at `pbInput`,
stores at most `cbOutput` bytes from `pbOutput` on, and stores a byte count in
`*pcbResult`.  Returns the status, that count, the memory and the provider state. -/
def BCryptEncrypt (P : Provider) (s : ProviderState) (mem : Int → Nat) (hKey : Nat)
    (pbInput : Int) (cbInput : Nat) (pPaddingInfo pbIV cbIV : Nat) (pbOutput : Int)
    (cbOutput : Nat) (dwFlags : Nat) : Int × Nat × (Int → Nat) × ProviderState :=
  let outcome := P.transform hKey (keySecret s hKey) (readBytes mem pbInput cbInput)
  (outcome.status, outcome.cbResult % 4294967296,
    writeBytes mem pbOutput (outcome.written.take cbOutput),
    { algs := s.algs, keys := s.keys,
      log := s.log ++
        [Call.encrypt hKey pbInput cbInput pPaddingInfo pbIV cbIV pbOutput cbOutput dwFlags] })

/-- Model of `BCryptDestroyKey`: the handle leaves the table of open keys. -/
def BCryptDestroyKey (s : ProviderState) (hKey : Nat) : ProviderState :=
  { algs := s.algs, keys := s.keys.filter (fun e => e.1 != hKey),
    log := s.log ++ [Call.destroyKey hKey] }

/-- Model of `BCryptCloseAlgorithmProvider`: the handle leaves the table of open
algorithm providers. -/
def BCryptCloseAlgorithmProvider (s : ProviderState) (hAlgorithm : Nat) (dwFlags : Nat) :
    ProviderState :=
  { algs := s.algs.filter (fun h => h != hAlgorithm), keys := s.keys,
    log := s.log ++ [Call.closeAlgorithmProvider hAlgorithm dwFlags] }

/-! ## The wrapper -/

/-- The struct `AesBcrypt`: both handles start as `nullptr`. -/
structure AesBcrypt where
  m_algorithm : Nat := 0
  m_key : Nat := 0
  deriving DecidableEq

/-- The state: byte memory, the live `AesBcrypt` objects by address, the provider, and
`freed`: the field values a read finds at an address that holds no live object.  Such
a read is indeterminate in C++, so `freed` is an arbitrary map that no operation of
the model writes. -/
structure World where
  mem : Int → Nat
  heap : List (Nat × AesBcrypt)
  freed : Nat → AesBcrypt
  prov : ProviderState

/-- The object a live pointer refers to. -/
def live (w : World) (p : Nat) : Option AesBcrypt :=
  (w.heap.find? (fun e => e.1 == p)).map Prod.snd

/-- The fields read through `p`: those of the live object at `p`; when no object is
live there, the indeterminate values `w.freed p`. -/
def deref (w : World) (p : Nat) : AesBcrypt :=
  match live w p with
  | some c => c
  | none => w.freed p

/-- An address that is not null and holds no live object. -/
def freshAddr (w : World) : Nat := (w.heap.map Prod.fst).foldr max 0 + 1

/-- The allocation `std::make_unique<AesBcrypt>()`. -/
def make_unique (w : World) : Nat × World :=
  (freshAddr w, { w with heap := (freshAddr w, {}) :: w.heap })

/-- A store to the fields of the object at `p`. -/
def store (w : World) (p : Nat) (c : AesBcrypt) : World :=
  { w with heap := w.heap.map (fun e => if e.1 == p then (p, c) else e) }

/-- The destructor `~AesBcrypt`, run on the fields `c`. -/
def AesBcrypt.destructor (c : AesBcrypt) (s : ProviderState) : ProviderState :=
  let s1 := if 0 ≠ c.m_key then BCryptDestroyKey s c.m_key else s
  if 0 ≠ c.m_algorithm then BCryptCloseAlgorithmProvider s1 c.m_algorithm 0 else s1

/-- The expression `delete p` of a `std::unique_ptr<AesBcrypt>` that owns `p`:
runs the destructor on the fields read through `p` and frees the object. -/
def delete (w : World) (p : Nat) : World :=
  { mem := w.mem,
    heap := w.heap.filter (fun e => e.1 != p),
    freed := w.freed,
    prov := AesBcrypt.destructor (deref w p) w.prov }

/-- The function `AesBrypt_create`.  Returns the pointer (`0` for `nullptr`). -/
def AesBrypt_create (P : Provider) (w : World) (keyArray : Int) (keyArrayOffset : Int)
    (keyArrayLength : Int) : Nat × World :=
  let context := (make_unique w).1
  let w0 := (make_unique w).2
  -- Validate key size
  if keyArrayLength ≠ 16 ∧ keyArrayLength ≠ 24 ∧ keyArrayLength ≠ 32 then
    (0, delete w0 context)
  else
    -- Create the AES algorithm
    let r1 := BCryptOpenAlgorithmProvider P w0.prov (deref w0 context).m_algorithm 0 0
    let w1 := store { w0 with prov := r1.2.2 } context
      { deref w0 context with m_algorithm := r1.2.1 }
    if !NT_SUCCESS r1.1 then
      (0, delete w1 context)
    else
      let r2 := BCryptSetProperty P w1.prov (deref w1 context).m_algorithm 0
      let w2 := { w1 with prov := r2.2 }
      if !NT_SUCCESS r2.1 then
        (0, delete w2 context)
      else
        -- Create the symetric key object
        let r3 := BCryptGenerateSymmetricKey P w2.prov w2.mem (deref w2 context).m_algorithm
          (deref w2 context).m_key 0 0 (keyArray + keyArrayOffset) (toULONG keyArrayLength) 0
        let w3 := store { w2 with prov := r3.2.2 } context
          { deref w2 context with m_key := r3.2.1 }
        if !NT_SUCCESS r3.1 then
          (0, delete w3 context)
        else
          (context, w3)

/-- The function `AesBcrypt_release`: a `unique_ptr` takes the pointer over and is
reset, which deletes the object unless the pointer is null. -/
def AesBcrypt_release (w : World) (unsafeContext : Nat) : World :=
  if unsafeContext = 0 then w else delete w unsafeContext

/-- The function `AesBcrypt_encrpytBlock`.  Returns the `int` result and the state. -/
def AesBcrypt_encrpytBlock (P : Provider) (w : World) (context : Nat) (inputArray : Int)
    (inputOffset : Int) (inputLength : Int) (outputArray : Int) (outputOffset : Int) :
    Int × World :=
  if 0 = context then
    (0, w)
  else
    let r := BCryptEncrypt P w.prov w.mem (deref w context).m_key (inputArray + inputOffset)
      (toULONG inputLength) 0 0 0 (outputArray + outputOffset) (toULONG inputLength) 0
    let w1 : World := { w with mem := r.2.2.1, prov := r.2.2.2 }
    if !NT_SUCCESS r.1 then
      (0, w1)
    else
      (toInt32 r.2.1, w1)

/-! ## Auxiliary definitions used to state the properties -/

/-- Whether the provider answers the open request of `AesBrypt_create` with success. -/
def openSucceeds (P : Provider) (w : World) : Bool :=
  NT_SUCCESS (BCryptOpenAlgorithmProvider P w.prov 0 0 0).1

/-- Whether the provider answers the chaining-mode request that follows a successful
open with success. -/
def setModeSucceeds (P : Provider) (w : World) : Bool :=
  NT_SUCCESS (BCryptSetProperty P (BCryptOpenAlgorithmProvider P w.prov 0 0 0).2.2
    (freshHandle w.prov) 0).1

/-- Whether the provider answers the key request that follows a successful open and a
successful chaining-mode request with success. -/
def generateKeySucceeds (P : Provider) (w : World) (keyArray keyArrayOffset keyArrayLength : Int) :
    Bool :=
  NT_SUCCESS (BCryptGenerateSymmetricKey P
    (BCryptSetProperty P (BCryptOpenAlgorithmProvider P w.prov 0 0 0).2.2 (freshHandle w.prov) 0).2
    w.mem (freshHandle w.prov) 0 0 0 (keyArray + keyArrayOffset) (toULONG keyArrayLength) 0).1

/-- The handle is open in the provider's table of keys. -/
def keyOpen (s : ProviderState) (hKey : Nat) : Bool := (s.keys.map Prod.fst).contains hKey

/-- The handle is open in the provider's table of algorithm providers. -/
def algOpen (s : ProviderState) (hAlgorithm : Nat) : Bool := s.algs.contains hAlgorithm

/-- What the provider answers to the request `AesBcrypt_encrpytBlock` makes for a
non-null `context`. -/
def encryptOutcome (P : Provider) (w : World) (context : Nat) (inputArray inputOffset
    inputLength : Int) : EncryptOutcome :=
  P.transform (deref w context).m_key (keySecret w.prov (deref w context).m_key)
    (readBytes w.mem (inputArray + inputOffset) (toULONG inputLength))

/-- The arguments of one `AesBcrypt_encrpytBlock` call. -/
structure EncryptArgs where
  context : Nat
  inputArray : Int
  inputOffset : Int
  inputLength : Int
  outputArray : Int
  outputOffset : Int

/-- The state after a sequence of `AesBcrypt_encrpytBlock` calls. -/
def runEncrypts (P : Provider) (w : World) (calls : List EncryptArgs) : World :=
  calls.foldl (fun v c => (AesBcrypt_encrpytBlock P v c.context c.inputArray c.inputOffset
    c.inputLength c.outputArray c.outputOffset).2) w

/-- An unpadded ECB transform: for an open key and an input that is a positive
multiple of the 16-byte block, it succeeds and reports as many bytes as it was given. -/
def UnpaddedEcb (P : Provider) : Prop :=
  ∀ (hKey : Nat) (secret input : List Nat), 0 < input.length → input.length % 16 = 0 →
    NT_SUCCESS (P.transform hKey (some secret) input).status = true ∧
      (P.transform hKey (some secret) input).cbResult = input.length

/-- The state a failed `AesBrypt_create` leaves: the object it allocated is gone. -/
def failedCreate (w : World) (s : ProviderState) : World :=
  { mem := w.mem, heap := w.heap, freed := w.freed, prov := s }

/-! ## Concrete states and providers for the example runs -/

/-- A provider whose construction calls all succeed; its transform, for an open key,
adds the first key byte plus one to every input byte, and rejects a handle that is
not open with `STATUS_INVALID_HANDLE`. -/
def toyProvider : Provider :=
  { openAlgorithm := fun _ => 0
    setProperty := fun _ _ => 0
    generateSymmetricKey := fun _ _ _ => 0
    transform := fun _ secret input =>
      match secret with
      | some k =>
        { status := 0, cbResult := input.length,
          written := input.map (fun b => (b + k.headD 0 + 1) % 256) }
      | none => { status := -1073741816, cbResult := 0, written := [] } }

/-- A provider like `toyProvider` whose key generation fails with `STATUS_NO_MEMORY`. -/
def noKeyProvider : Provider :=
  { toyProvider with generateSymmetricKey := fun _ _ _ => -1073741801 }

/-- A provider whose transform fails with `STATUS_UNSUCCESSFUL` after storing a byte
count of 16. -/
def failingProvider : Provider :=
  { toyProvider with
    transform := fun _ _ _ => { status := -1073741823, cbResult := 16, written := [] } }

/-- A provider whose transform stores the same block of 16 bytes whatever it is asked. -/
def blockProvider : Provider :=
  { toyProvider with
    transform := fun _ _ _ =>
      { status := 0, cbResult := 16, written := List.replicate 16 170 } }

/-- A state with no object and no open handle; the bytes `0, 1, .., 15` are stored at
addresses 0 to 15 and the bytes `0x00, 0x11, .., 0xff` at addresses 32 to 47. -/
def sampleWorld : World :=
  { mem := fun a =>
      if 0 ≤ a ∧ a < 16 then a.toNat else if 32 ≤ a ∧ a < 48 then 17 * (a - 32).toNat else 0
    heap := []
    freed := fun _ => {}
    prov := { algs := [], keys := [], log := [] } }

/-- The state `sampleWorld` in which a read at an address with no live object finds
the field values `g`. -/
def worldReading (g : AesBcrypt) : World :=
  { mem := sampleWorld.mem, heap := [], freed := fun _ => g,
    prov := { algs := [], keys := [], log := [] } }

/-! ## Helper lemmas -/

theorem le_foldr_max (l : List Nat) (x : Nat) (h : x ∈ l) : x ≤ l.foldr max 0 := by
  induction l with
  | nil => cases h
  | cons a t ih =>
    rcases List.mem_cons.mp h with h1 | h1
    · subst h1; exact le_max_left _ _
    · exact le_trans (ih h1) (le_max_right _ _)

theorem freshAddr_ne (w : World) (e : Nat × AesBcrypt) (h : e ∈ w.heap) : e.1 ≠ freshAddr w := by
  have h1 : e.1 ≤ (w.heap.map Prod.fst).foldr max 0 :=
    le_foldr_max _ _ (List.mem_map_of_mem Prod.fst h)
  unfold freshAddr; omega

theorem freshAddr_ne_zero (w : World) : freshAddr w ≠ 0 := by unfold freshAddr; omega

theorem freshHandle_ne_zero (s : ProviderState) : freshHandle s ≠ 0 := by unfold freshHandle; omega

theorem freshHandle_not_alg (s : ProviderState) (h : Nat) (hm : h ∈ s.algs) : h ≠ freshHandle s := by
  have h1 : h ≤ (s.algs ++ s.keys.map Prod.fst).foldr max 0 :=
    le_foldr_max _ _ (List.mem_append_left _ hm)
  unfold freshHandle; omega

theorem freshHandle_not_key (s : ProviderState) (e : Nat × List Nat) (hm : e ∈ s.keys) :
    e.1 ≠ freshHandle s := by
  have h1 : e.1 ≤ (s.algs ++ s.keys.map Prod.fst).foldr max 0 :=
    le_foldr_max _ _ (List.mem_append_right _ (List.mem_map_of_mem Prod.fst hm))
  unfold freshHandle; omega

theorem map_store_absent (l : List (Nat × AesBcrypt)) (p : Nat) (c : AesBcrypt)
    (h : ∀ e ∈ l, e.1 ≠ p) : l.map (fun e => if e.1 == p then (p, c) else e) = l := by
  induction l with
  | nil => rfl
  | cons a t ih =>
    have ha : a.1 ≠ p := h a (List.mem_cons_self _ _)
    have ht : ∀ e ∈ t, e.1 ≠ p := fun e he => h e (List.mem_cons_of_mem _ he)
    rw [List.map_cons, ih ht]
    simp [ha]

theorem filter_absent {β : Type} (l : List (Nat × β)) (p : Nat)
    (h : ∀ e ∈ l, e.1 ≠ p) : l.filter (fun e => e.1 != p) = l := by
  induction l with
  | nil => rfl
  | cons a t ih =>
    have ha : a.1 ≠ p := h a (List.mem_cons_self _ _)
    have ht : ∀ e ∈ t, e.1 ≠ p := fun e he => h e (List.mem_cons_of_mem _ he)
    simp [ha, ih ht]

theorem filter_absent_nat (l : List Nat) (p : Nat)
    (h : ∀ e ∈ l, e ≠ p) : l.filter (fun e => e != p) = l := by
  induction l with
  | nil => rfl
  | cons a t ih =>
    have ha : a ≠ p := h a (List.mem_cons_self _ _)
    have ht : ∀ e ∈ t, e ≠ p := fun e he => h e (List.mem_cons_of_mem _ he)
    simp [ha, ih ht]

theorem deref_head (m : Int → Nat) (h : List (Nat × AesBcrypt)) (f : Nat → AesBcrypt)
    (s : ProviderState)
    (p : Nat) (c : AesBcrypt) :
    deref { mem := m, heap := (p, c) :: h, freed := f, prov := s } p = c := by
  simp [deref, live]

theorem store_head (m : Int → Nat) (h : List (Nat × AesBcrypt)) (f : Nat → AesBcrypt)
    (s : ProviderState)
    (p : Nat) (c d : AesBcrypt) (habs : ∀ e ∈ h, e.1 ≠ p) :
    store { mem := m, heap := (p, c) :: h, freed := f, prov := s } p d =
      { mem := m, heap := (p, d) :: h, freed := f, prov := s } := by
  unfold store
  simp only [List.map_cons, map_store_absent h p d habs]
  simp

theorem delete_head (m : Int → Nat) (h : List (Nat × AesBcrypt)) (f : Nat → AesBcrypt)
    (s : ProviderState)
    (p : Nat) (c : AesBcrypt) (habs : ∀ e ∈ h, e.1 ≠ p) :
    delete { mem := m, heap := (p, c) :: h, freed := f, prov := s } p =
      { mem := m, heap := h, freed := f, prov := AesBcrypt.destructor c s } := by
  simp [delete, deref_head, filter_absent h p habs]

theorem generateKey_handle_of_failure (P : Provider) (s : ProviderState) (mem : Int → Nat)
    (hAlgorithm phKey pbKeyObject cbKeyObject : Nat) (pbSecret : Int) (cbSecret dwFlags : Nat)
    (h : ¬ NT_SUCCESS (BCryptGenerateSymmetricKey P s mem hAlgorithm phKey pbKeyObject
      cbKeyObject pbSecret cbSecret dwFlags).1 = true) :
    (BCryptGenerateSymmetricKey P s mem hAlgorithm phKey pbKeyObject cbKeyObject pbSecret
      cbSecret dwFlags).2.1 = phKey := by
  unfold BCryptGenerateSymmetricKey at h ⊢
  by_cases hs : NT_SUCCESS (P.generateSymmetricKey s hAlgorithm (readBytes mem pbSecret cbSecret))
      = true
  · simp [hs] at h
  · simp [hs]

theorem create_eq (P : Provider) (w : World) (keyArray off len : Int) :
    AesBrypt_create P w keyArray off len =
      if len ≠ 16 ∧ len ≠ 24 ∧ len ≠ 32 then (0, failedCreate w w.prov)
      else
        let r1 := BCryptOpenAlgorithmProvider P w.prov 0 0 0
        if !NT_SUCCESS r1.1 then (0, failedCreate w r1.2.2)
        else
          let h := freshHandle w.prov
          let r2 := BCryptSetProperty P r1.2.2 h 0
          if !NT_SUCCESS r2.1 then
            (0, failedCreate w (BCryptCloseAlgorithmProvider r2.2 h 0))
          else
            let r3 := BCryptGenerateSymmetricKey P r2.2 w.mem h 0 0 0 (keyArray + off)
              (toULONG len) 0
            if !NT_SUCCESS r3.1 then
              (0, failedCreate w (BCryptCloseAlgorithmProvider r3.2.2 h 0))
            else
              (freshAddr w,
                { mem := w.mem,
                  heap := (freshAddr w, { m_algorithm := h, m_key := r3.2.1 }) :: w.heap,
                  freed := w.freed, prov := r3.2.2 }) := by
  have hf := freshAddr_ne w
  have hz : ¬ (0 = freshHandle w.prov) := fun h => freshHandle_ne_zero _ h.symm
  unfold AesBrypt_create
  simp only [make_unique, deref_head, store_head _ _ _ _ _ _ _ hf, delete_head _ _ _ _ _ _ hf]
  by_cases hlen : len ≠ 16 ∧ len ≠ 24 ∧ len ≠ 32
  · rw [if_pos hlen, if_pos hlen]
    simp [failedCreate, AesBcrypt.destructor]
  · rw [if_neg hlen, if_neg hlen]
    by_cases h1 : NT_SUCCESS (P.openAlgorithm w.prov) = true
    · simp only [BCryptOpenAlgorithmProvider, h1, if_true, Bool.not_true, Bool.false_eq_true,
        if_false]
      by_cases h2 : NT_SUCCESS (BCryptSetProperty P
          { algs := freshHandle w.prov :: w.prov.algs, keys := w.prov.keys,
            log := w.prov.log ++ [Call.openAlgorithmProvider 0 0] } (freshHandle w.prov) 0).1 = true
      · simp only [h2, Bool.not_true, Bool.false_eq_true, if_false]
        by_cases h3 : NT_SUCCESS (BCryptGenerateSymmetricKey P (BCryptSetProperty P
            { algs := freshHandle w.prov :: w.prov.algs, keys := w.prov.keys,
              log := w.prov.log ++ [Call.openAlgorithmProvider 0 0] } (freshHandle w.prov) 0).2
            w.mem (freshHandle w.prov) 0 0 0 (keyArray + off) (toULONG len) 0).1 = true
        · simp only [h3, Bool.not_true, Bool.false_eq_true, if_false]
        · have hk := generateKey_handle_of_failure P (BCryptSetProperty P
              { algs := freshHandle w.prov :: w.prov.algs, keys := w.prov.keys,
                log := w.prov.log ++ [Call.openAlgorithmProvider 0 0] } (freshHandle w.prov) 0).2
              w.mem (freshHandle w.prov) 0 0 0 (keyArray + off) (toULONG len) 0 h3
          simp [h3, hk, failedCreate, AesBcrypt.destructor, hz]
      · simp [h2, failedCreate, AesBcrypt.destructor, hz]
    · simp [BCryptOpenAlgorithmProvider, h1, failedCreate, AesBcrypt.destructor]

theorem create_invalid_length (P : Provider) (w : World) (keyArray off len : Int)
    (hlen : ¬ (len = 16 ∨ len = 24 ∨ len = 32)) :
    AesBrypt_create P w keyArray off len = (0, failedCreate w w.prov) := by
  have h : len ≠ 16 ∧ len ≠ 24 ∧ len ≠ 32 := by
    refine ⟨fun h => hlen (Or.inl h), fun h => hlen (Or.inr (Or.inl h)),
      fun h => hlen (Or.inr (Or.inr h))⟩
  rw [create_eq, if_pos h]

theorem valid_length_guard (len : Int) (hlen : len = 16 ∨ len = 24 ∨ len = 32) :
    ¬ (len ≠ 16 ∧ len ≠ 24 ∧ len ≠ 32) := by
  rintro ⟨h1, h2, h3⟩
  rcases hlen with h | h | h
  · exact h1 h
  · exact h2 h
  · exact h3 h

theorem create_open_fails (P : Provider) (w : World) (keyArray off len : Int)
    (hlen : len = 16 ∨ len = 24 ∨ len = 32) (h1 : openSucceeds P w = false) :
    AesBrypt_create P w keyArray off len =
      (0, failedCreate w (BCryptOpenAlgorithmProvider P w.prov 0 0 0).2.2) := by
  rw [create_eq, if_neg (valid_length_guard len hlen)]
  unfold openSucceeds at h1
  simp [h1]

theorem create_setMode_fails (P : Provider) (w : World) (keyArray off len : Int)
    (hlen : len = 16 ∨ len = 24 ∨ len = 32) (h1 : openSucceeds P w = true)
    (h2 : setModeSucceeds P w = false) :
    AesBrypt_create P w keyArray off len =
      (0, failedCreate w
        (BCryptCloseAlgorithmProvider
          (BCryptSetProperty P (BCryptOpenAlgorithmProvider P w.prov 0 0 0).2.2
            (freshHandle w.prov) 0).2 (freshHandle w.prov) 0)) := by
  rw [create_eq, if_neg (valid_length_guard len hlen)]
  unfold openSucceeds at h1
  unfold setModeSucceeds at h2
  simp [h1, h2]

theorem create_generateKey_fails (P : Provider) (w : World) (keyArray off len : Int)
    (hlen : len = 16 ∨ len = 24 ∨ len = 32) (h1 : openSucceeds P w = true)
    (h2 : setModeSucceeds P w = true)
    (h3 : generateKeySucceeds P w keyArray off len = false) :
    AesBrypt_create P w keyArray off len =
      (0, failedCreate w
        (BCryptCloseAlgorithmProvider
          (BCryptGenerateSymmetricKey P
            (BCryptSetProperty P (BCryptOpenAlgorithmProvider P w.prov 0 0 0).2.2
              (freshHandle w.prov) 0).2
            w.mem (freshHandle w.prov) 0 0 0 (keyArray + off) (toULONG len) 0).2.2
          (freshHandle w.prov) 0)) := by
  rw [create_eq, if_neg (valid_length_guard len hlen)]
  unfold openSucceeds at h1
  unfold setModeSucceeds at h2
  unfold generateKeySucceeds at h3
  simp [h1, h2, h3]

theorem create_succeeds (P : Provider) (w : World) (keyArray off len : Int)
    (hlen : len = 16 ∨ len = 24 ∨ len = 32) (h1 : openSucceeds P w = true)
    (h2 : setModeSucceeds P w = true)
    (h3 : generateKeySucceeds P w keyArray off len = true) :
    AesBrypt_create P w keyArray off len =
      (freshAddr w,
        { mem := w.mem,
          heap := (freshAddr w,
            { m_algorithm := freshHandle w.prov,
              m_key := (BCryptGenerateSymmetricKey P
                (BCryptSetProperty P (BCryptOpenAlgorithmProvider P w.prov 0 0 0).2.2
                  (freshHandle w.prov) 0).2
                w.mem (freshHandle w.prov) 0 0 0 (keyArray + off) (toULONG len) 0).2.1 }) ::
              w.heap,
          freed := w.freed,
          prov := (BCryptGenerateSymmetricKey P
            (BCryptSetProperty P (BCryptOpenAlgorithmProvider P w.prov 0 0 0).2.2
              (freshHandle w.prov) 0).2
            w.mem (freshHandle w.prov) 0 0 0 (keyArray + off) (toULONG len) 0).2.2 }) := by
  rw [create_eq, if_neg (valid_length_guard len hlen)]
  unfold openSucceeds at h1
  unfold setModeSucceeds at h2
  unfold generateKeySucceeds at h3
  simp [h1, h2, h3]

theorem generateKey_of_success (P : Provider) (s : ProviderState) (mem : Int → Nat)
    (hAlgorithm phKey pbKeyObject cbKeyObject : Nat) (pbSecret : Int) (cbSecret dwFlags : Nat)
    (h : NT_SUCCESS (BCryptGenerateSymmetricKey P s mem hAlgorithm phKey pbKeyObject
      cbKeyObject pbSecret cbSecret dwFlags).1 = true) :
    (BCryptGenerateSymmetricKey P s mem hAlgorithm phKey pbKeyObject cbKeyObject pbSecret
      cbSecret dwFlags).2.1 = freshHandle s ∧
    (BCryptGenerateSymmetricKey P s mem hAlgorithm phKey pbKeyObject cbKeyObject pbSecret
      cbSecret dwFlags).2.2 =
      { algs := s.algs, keys := (freshHandle s, readBytes mem pbSecret cbSecret) :: s.keys,
        log := s.log ++ [Call.generateSymmetricKey hAlgorithm pbKeyObject cbKeyObject pbSecret
          cbSecret (readBytes mem pbSecret cbSecret) dwFlags] } := by
  unfold BCryptGenerateSymmetricKey at h ⊢
  by_cases hs : NT_SUCCESS (P.generateSymmetricKey s hAlgorithm (readBytes mem pbSecret cbSecret))
      = true
  · simp [hs]
  · simp [hs] at h

theorem live_head (m : Int → Nat) (h : List (Nat × AesBcrypt)) (f : Nat → AesBcrypt)
    (s : ProviderState)
    (p : Nat) (c : AesBcrypt) :
    live { mem := m, heap := (p, c) :: h, freed := f, prov := s } p = some c := by
  simp [live]

theorem openAlgorithm_of_success (P : Provider) (s : ProviderState)
    (phAlgorithm pszImplementation dwFlags : Nat)
    (h : NT_SUCCESS (BCryptOpenAlgorithmProvider P s phAlgorithm pszImplementation dwFlags).1
      = true) :
    (BCryptOpenAlgorithmProvider P s phAlgorithm pszImplementation dwFlags).2.2 =
      { algs := freshHandle s :: s.algs, keys := s.keys,
        log := s.log ++ [Call.openAlgorithmProvider pszImplementation dwFlags] } := by
  unfold BCryptOpenAlgorithmProvider at h ⊢
  by_cases hs : NT_SUCCESS (P.openAlgorithm s) = true
  · simp [hs]
  · simp [hs] at h

theorem openAlgorithm_of_failure (P : Provider) (s : ProviderState)
    (phAlgorithm pszImplementation dwFlags : Nat)
    (h : NT_SUCCESS (BCryptOpenAlgorithmProvider P s phAlgorithm pszImplementation dwFlags).1
      = false) :
    (BCryptOpenAlgorithmProvider P s phAlgorithm pszImplementation dwFlags).2.2 =
      { algs := s.algs, keys := s.keys,
        log := s.log ++ [Call.openAlgorithmProvider pszImplementation dwFlags] } := by
  unfold BCryptOpenAlgorithmProvider at h ⊢
  by_cases hs : NT_SUCCESS (P.openAlgorithm s) = true
  · simp [hs] at h
  · simp [hs]

theorem generateKey_of_failure (P : Provider) (s : ProviderState) (mem : Int → Nat)
    (hAlgorithm phKey pbKeyObject cbKeyObject : Nat) (pbSecret : Int) (cbSecret dwFlags : Nat)
    (h : NT_SUCCESS (BCryptGenerateSymmetricKey P s mem hAlgorithm phKey pbKeyObject
      cbKeyObject pbSecret cbSecret dwFlags).1 = false) :
    (BCryptGenerateSymmetricKey P s mem hAlgorithm phKey pbKeyObject cbKeyObject pbSecret
      cbSecret dwFlags).2.2 =
      { algs := s.algs, keys := s.keys,
        log := s.log ++ [Call.generateSymmetricKey hAlgorithm pbKeyObject cbKeyObject pbSecret
          cbSecret (readBytes mem pbSecret cbSecret) dwFlags] } := by
  unfold BCryptGenerateSymmetricKey at h ⊢
  by_cases hs : NT_SUCCESS (P.generateSymmetricKey s hAlgorithm (readBytes mem pbSecret cbSecret))
      = true
  · simp [hs] at h
  · simp [hs]

theorem toInt32_mod (n : Nat) : toInt32 (n % 4294967296) = toInt32 n := by
  unfold toInt32
  rw [Nat.mod_mod]

theorem encryptBlock_nonnull (P : Provider) (w : World) (context : Nat)
    (inputArray inputOffset inputLength outputArray outputOffset : Int) (h : context ≠ 0) :
    AesBcrypt_encrpytBlock P w context inputArray inputOffset inputLength outputArray
        outputOffset =
      (if NT_SUCCESS (encryptOutcome P w context inputArray inputOffset inputLength).status
          = true then
        toInt32 (encryptOutcome P w context inputArray inputOffset inputLength).cbResult
        else 0,
        { mem := writeBytes w.mem (outputArray + outputOffset)
            ((encryptOutcome P w context inputArray inputOffset inputLength).written.take
              (toULONG inputLength)),
          heap := w.heap, freed := w.freed,
          prov :=
            { algs := w.prov.algs, keys := w.prov.keys,
              log := w.prov.log ++
                [Call.encrypt (deref w context).m_key (inputArray + inputOffset)
                  (toULONG inputLength) 0 0 0 (outputArray + outputOffset)
                  (toULONG inputLength) 0] } }) := by
  have h0 : ¬ (0 = context) := fun e => h e.symm
  unfold AesBcrypt_encrpytBlock
  rw [if_neg h0]
  by_cases hs : NT_SUCCESS (encryptOutcome P w context inputArray inputOffset
      inputLength).status = true
  · have hs2 := hs
    unfold encryptOutcome at hs2
    simp [BCryptEncrypt, hs, hs2, encryptOutcome, toInt32_mod]
  · have hs2 := hs
    unfold encryptOutcome at hs2
    simp [BCryptEncrypt, hs, hs2, encryptOutcome]

theorem encrypt_null_state (P : Provider) (w : World)
    (inputArray inputOffset inputLength outputArray outputOffset : Int) :
    AesBcrypt_encrpytBlock P w 0 inputArray inputOffset inputLength outputArray outputOffset =
      (0, w) := by
  simp [AesBcrypt_encrpytBlock]

theorem encryptBlock_frame (P : Provider) (w : World) (context : Nat)
    (inputArray inputOffset inputLength outputArray outputOffset : Int) :
    (AesBcrypt_encrpytBlock P w context inputArray inputOffset inputLength outputArray
        outputOffset).2.heap = w.heap ∧
    (AesBcrypt_encrpytBlock P w context inputArray inputOffset inputLength outputArray
        outputOffset).2.freed = w.freed ∧
    (AesBcrypt_encrpytBlock P w context inputArray inputOffset inputLength outputArray
        outputOffset).2.prov.algs = w.prov.algs ∧
    (AesBcrypt_encrpytBlock P w context inputArray inputOffset inputLength outputArray
        outputOffset).2.prov.keys = w.prov.keys := by
  by_cases h : context = 0
  · subst h; rw [encrypt_null_state]; simp
  · rw [encryptBlock_nonnull P w context _ _ _ _ _ h]; simp

theorem runEncrypts_frame (P : Provider) (calls : List EncryptArgs) (w : World) :
    (runEncrypts P w calls).heap = w.heap ∧ (runEncrypts P w calls).freed = w.freed ∧
    (runEncrypts P w calls).prov.algs = w.prov.algs ∧
    (runEncrypts P w calls).prov.keys = w.prov.keys := by
  induction calls generalizing w with
  | nil => simp [runEncrypts]
  | cons c t ih =>
    have hstep : runEncrypts P w (c :: t) =
        runEncrypts P (AesBcrypt_encrpytBlock P w c.context c.inputArray c.inputOffset
          c.inputLength c.outputArray c.outputOffset).2 t := by
      simp [runEncrypts]
    have hf := encryptBlock_frame P w c.context c.inputArray c.inputOffset c.inputLength
      c.outputArray c.outputOffset
    have ht := ih (AesBcrypt_encrpytBlock P w c.context c.inputArray c.inputOffset
      c.inputLength c.outputArray c.outputOffset).2
    rw [hstep]
    exact ⟨ht.1.trans hf.1, ht.2.1.trans hf.2.1, ht.2.2.1.trans hf.2.2.1,
      ht.2.2.2.trans hf.2.2.2⟩

theorem deref_congr (v w : World) (p : Nat) (hh : v.heap = w.heap) (hf : v.freed = w.freed) :
    deref v p = deref w p := by
  simp [deref, live, hh, hf]

theorem keySecret_congr (s t : ProviderState) (k : Nat) (h : s.keys = t.keys) :
    keySecret s k = keySecret t k := by
  simp [keySecret, h]

theorem encryptOutcome_congr (P : Provider) (v w : World) (context : Nat)
    (ia1 io1 ia2 io2 il : Int) (hh : v.heap = w.heap) (hf : v.freed = w.freed)
    (hk : v.prov.keys = w.prov.keys)
    (hin : readBytes v.mem (ia1 + io1) (toULONG il) = readBytes w.mem (ia2 + io2) (toULONG il)) :
    encryptOutcome P v context ia1 io1 il = encryptOutcome P w context ia2 io2 il := by
  unfold encryptOutcome
  rw [deref_congr v w context hh hf, keySecret_congr v.prov w.prov _ hk, hin]

theorem readBytes_length (mem : Int → Nat) (p : Int) (n : Nat) :
    (readBytes mem p n).length = n := by
  simp [readBytes]

theorem writeBytes_outside (mem : Int → Nat) (p : Int) (bytes : List Nat) (a : Int)
    (h : ¬ (p ≤ a ∧ a < p + (bytes.length : Int))) : writeBytes mem p bytes a = mem a := by
  simp only [writeBytes, if_neg h]

theorem writeBytes_inside (mem : Int → Nat) (p : Int) (bytes : List Nat) (i : Nat)
    (h : i < bytes.length) : writeBytes mem p bytes (p + (i : Int)) = bytes.getD i 0 := by
  have h1 : p ≤ p + (i : Int) ∧ p + (i : Int) < p + (bytes.length : Int) := by
    constructor <;> omega
  simp only [writeBytes, if_pos h1]
  congr 1
  omega
theorem create_nonnull_steps (P : Provider) (w : World) (keyArray off len : Int)
    (h : (AesBrypt_create P w keyArray off len).1 ≠ 0) :
    (len = 16 ∨ len = 24 ∨ len = 32) ∧ openSucceeds P w = true ∧ setModeSucceeds P w = true ∧
      generateKeySucceeds P w keyArray off len = true := by
  by_cases hlen : len = 16 ∨ len = 24 ∨ len = 32
  · cases h1 : openSucceeds P w
    · rw [create_open_fails P w _ _ _ hlen h1] at h; exact absurd rfl h
    · cases h2 : setModeSucceeds P w
      · rw [create_setMode_fails P w _ _ _ hlen h1 h2] at h; exact absurd rfl h
      · cases h3 : generateKeySucceeds P w keyArray off len
        · rw [create_generateKey_fails P w _ _ _ hlen h1 h2 h3] at h; exact absurd rfl h
        · exact ⟨hlen, rfl, rfl, rfl⟩
  · rw [create_invalid_length P w _ _ _ hlen] at h; exact absurd rfl h

theorem create_key_bound (P : Provider) (w : World) (keyArray off len : Int)
    (h : (AesBrypt_create P w keyArray off len).1 ≠ 0) :
    keySecret (AesBrypt_create P w keyArray off len).2.prov
      (deref (AesBrypt_create P w keyArray off len).2
        (AesBrypt_create P w keyArray off len).1).m_key =
      some (readBytes w.mem (keyArray + off) (toULONG len)) := by
  obtain ⟨hlen, h1, h2, h3⟩ := create_nonnull_steps P w keyArray off len h
  rw [create_succeeds P w _ _ _ hlen h1 h2 h3]
  unfold generateKeySucceeds at h3
  have hg := generateKey_of_success P _ w.mem (freshHandle w.prov) 0 0 0
    (keyArray + off) (toULONG len) 0 h3
  simp only [deref_head]
  rw [hg.2, hg.1]
  simp [keySecret]

theorem toULONG_of_nonneg (n : Int) (h0 : 0 ≤ n) (h1 : n < 4294967296) :
    ((toULONG n : Nat) : Int) = n := by
  unfold toULONG
  rw [Int.emod_eq_of_lt h0 h1]
  exact Int.toNat_of_nonneg h0

theorem toULONG_sixteen : toULONG 16 = 16 := by decide

theorem toyProvider_unpaddedEcb : UnpaddedEcb toyProvider := by
  intro hKey secret input _ _
  simp [toyProvider, NT_SUCCESS]

theorem readBytes_getElem (mem : Int → Nat) (p : Int) (n i : Nat)
    (h : i < (readBytes mem p n).length) : (readBytes mem p n)[i] = mem (p + (i : Int)) := by
  simp [readBytes]

theorem readBytes_slice (mem : Int → Nat) (p : Int) (buf : List Nat) (off n : Nat)
    (hbuf : readBytes mem p buf.length = buf) (hin : off + n ≤ buf.length) :
    readBytes mem (p + (off : Int)) n = (buf.drop off).take n := by
  apply List.ext_getElem
  · rw [readBytes_length, List.length_take, List.length_drop]
    omega
  · intro i h1 h2
    rw [readBytes_getElem, List.getElem_take, List.getElem_drop]
    have hi : i < n := by rw [readBytes_length] at h1; exact h1
    have hlt : off + i < (readBytes mem p buf.length).length := by
      rw [readBytes_length]; omega
    have hlt2 : off + i < buf.length := by omega
    have hb : buf[off + i] = (readBytes mem p buf.length)[off + i] := by
      congr 1
      exact hbuf.symm
    rw [hb, readBytes_getElem]
    congr 1
    push_cast
    ring

theorem readBytes_congr (m1 m2 : Int → Nat) (p : Int) (n : Nat)
    (h : ∀ i : Nat, i < n → m1 (p + (i : Int)) = m2 (p + (i : Int))) :
    readBytes m1 p n = readBytes m2 p n := by
  unfold readBytes
  apply List.map_congr_left
  intro i hi
  exact h i (List.mem_range.mp hi)

theorem generateKey_congr (P : Provider) (s : ProviderState) (m1 m2 : Int → Nat)
    (hAlgorithm phKey pbKeyObject cbKeyObject : Nat) (pbSecret : Int) (cbSecret dwFlags : Nat)
    (h : readBytes m1 pbSecret cbSecret = readBytes m2 pbSecret cbSecret) :
    BCryptGenerateSymmetricKey P s m1 hAlgorithm phKey pbKeyObject cbKeyObject pbSecret
      cbSecret dwFlags =
    BCryptGenerateSymmetricKey P s m2 hAlgorithm phKey pbKeyObject cbKeyObject pbSecret
      cbSecret dwFlags := by
  unfold BCryptGenerateSymmetricKey
  rw [h]

theorem create_mem (P : Provider) (w : World) (keyArray off len : Int) :
    (AesBrypt_create P w keyArray off len).2.mem = w.mem := by
  by_cases hlen : len = 16 ∨ len = 24 ∨ len = 32
  · cases h1 : openSucceeds P w
    · rw [create_open_fails P w _ _ _ hlen h1]; rfl
    · cases h2 : setModeSucceeds P w
      · rw [create_setMode_fails P w _ _ _ hlen h1 h2]; rfl
      · cases h3 : generateKeySucceeds P w keyArray off len
        · rw [create_generateKey_fails P w _ _ _ hlen h1 h2 h3]; rfl
        · rw [create_succeeds P w _ _ _ hlen h1 h2 h3]
  · rw [create_invalid_length P w _ _ _ hlen]; rfl

theorem create_log (P : Provider) (w : World) (keyArray off len : Int)
    (hlen : len = 16 ∨ len = 24 ∨ len = 32) (h1 : openSucceeds P w = true)
    (h2 : setModeSucceeds P w = true) :
    (AesBrypt_create P w keyArray off len).2.prov.log =
      w.prov.log ++
        [Call.openAlgorithmProvider 0 0, Call.setChainingModeECB (freshHandle w.prov) 0,
          Call.generateSymmetricKey (freshHandle w.prov) 0 0 (keyArray + off) (toULONG len)
            (readBytes w.mem (keyArray + off) (toULONG len)) 0] ++
        (if generateKeySucceeds P w keyArray off len = true then []
          else [Call.closeAlgorithmProvider (freshHandle w.prov) 0]) := by
  have ho : (BCryptOpenAlgorithmProvider P w.prov 0 0 0).2.2 = _ :=
    openAlgorithm_of_success P w.prov 0 0 0 (by unfold openSucceeds at h1; exact h1)
  cases h3 : generateKeySucceeds P w keyArray off len
  · rw [create_generateKey_fails P w _ _ _ hlen h1 h2 h3]
    unfold generateKeySucceeds at h3
    rw [generateKey_of_failure P _ w.mem _ _ _ _ _ _ _ h3]
    simp [failedCreate, BCryptCloseAlgorithmProvider, BCryptSetProperty, ho]
  · rw [create_succeeds P w _ _ _ hlen h1 h2 h3]
    unfold generateKeySucceeds at h3
    rw [(generateKey_of_success P _ w.mem _ _ _ _ _ _ _ h3).2]
    simp [BCryptSetProperty, ho]

theorem create_mem_irrelevant (P : Provider) (w : World) (keyArray off len : Int)
    (m : Int → Nat)
    (h : readBytes m (keyArray + off) (toULONG len) =
      readBytes w.mem (keyArray + off) (toULONG len)) :
    (AesBrypt_create P { mem := m, heap := w.heap, freed := w.freed, prov := w.prov }
        keyArray off len).1 = (AesBrypt_create P w keyArray off len).1 ∧
    (AesBrypt_create P { mem := m, heap := w.heap, freed := w.freed, prov := w.prov }
        keyArray off len).2.prov = (AesBrypt_create P w keyArray off len).2.prov ∧
    (AesBrypt_create P { mem := m, heap := w.heap, freed := w.freed, prov := w.prov }
        keyArray off len).2.heap = (AesBrypt_create P w keyArray off len).2.heap := by
  rw [create_eq, create_eq]
  simp only [generateKey_congr P _ m w.mem _ _ _ _ _ _ _ h, failedCreate, freshAddr]
  split_ifs <;> simp
theorem find_filter_self {β : Type} (l : List (Nat × β)) (p : Nat) :
    (l.filter (fun e => e.1 != p)).find? (fun e => e.1 == p) = none := by
  induction l with
  | nil => rfl
  | cons a t ih =>
    by_cases ha : a.1 = p
    · simp [List.filter_cons, ha, ih]
    · simp [List.filter_cons, ha, List.find?_cons, ih]

theorem find_filter_other {β : Type} (l : List (Nat × β)) (p q : Nat) (hq : q ≠ p) :
    (l.filter (fun e => e.1 != p)).find? (fun e => e.1 == q) =
      l.find? (fun e => e.1 == q) := by
  induction l with
  | nil => rfl
  | cons a t ih =>
    by_cases ha : a.1 = p
    · have hne : ¬ a.1 = q := fun h => hq (h.symm.trans ha)
      have h1 : (a.1 != p) = false := by simp [ha]
      have h2 : (a.1 == q) = false := by simp [hne]
      simp only [List.filter_cons, List.find?_cons, h1, h2, Bool.false_eq_true, if_false]
      exact ih
    · have h1 : (a.1 != p) = true := by simp [ha]
      by_cases hb : a.1 = q
      · have h2 : (a.1 == q) = true := by simp [hb]
        simp only [List.filter_cons, List.find?_cons, h1, h2, if_true]
      · have h2 : (a.1 == q) = false := by simp [hb]
        simp only [List.filter_cons, List.find?_cons, h1, h2, if_true]
        exact ih

theorem deref_of_live (w : World) (p : Nat) (c : AesBcrypt) (h : live w p = some c) :
    deref w p = c := by
  simp [deref, h]

theorem release_nonnull (w : World) (p : Nat) (hp : p ≠ 0) :
    AesBcrypt_release w p = delete w p := by
  simp [AesBcrypt_release, hp]

theorem destructor_log (c : AesBcrypt) (s : ProviderState) :
    (AesBcrypt.destructor c s).log =
      s.log ++ (if c.m_key ≠ 0 then [Call.destroyKey c.m_key] else []) ++
        (if c.m_algorithm ≠ 0 then [Call.closeAlgorithmProvider c.m_algorithm 0] else []) := by
  unfold AesBcrypt.destructor
  by_cases hk : c.m_key = 0 <;> by_cases ha : c.m_algorithm = 0 <;>
    simp [hk, ha, BCryptDestroyKey, BCryptCloseAlgorithmProvider, Ne.symm, eq_comm]

theorem destructor_keys (c : AesBcrypt) (s : ProviderState) :
    (AesBcrypt.destructor c s).keys =
      if c.m_key ≠ 0 then s.keys.filter (fun e => e.1 != c.m_key) else s.keys := by
  unfold AesBcrypt.destructor
  by_cases hk : c.m_key = 0 <;> by_cases ha : c.m_algorithm = 0 <;>
    simp [hk, ha, BCryptDestroyKey, BCryptCloseAlgorithmProvider, Ne.symm, eq_comm]

theorem destructor_algs (c : AesBcrypt) (s : ProviderState) :
    (AesBcrypt.destructor c s).algs =
      if c.m_algorithm ≠ 0 then s.algs.filter (fun h => h != c.m_algorithm) else s.algs := by
  unfold AesBcrypt.destructor
  by_cases hk : c.m_key = 0 <;> by_cases ha : c.m_algorithm = 0 <;>
    simp [hk, ha, BCryptDestroyKey, BCryptCloseAlgorithmProvider, Ne.symm, eq_comm]
theorem deref_of_not_live (w : World) (p : Nat) (h : live w p = none) :
    deref w p = w.freed p := by
  simp [deref, h]

theorem live_delete_self (w : World) (p : Nat) : live (delete w p) p = none := by
  simp only [delete, live, find_filter_self]
  rfl

/-! ## The claims -/

/-- C1: `AesBrypt_create` returns a non-null instance exactly when the key length is
16, 24 or 32 and the provider answers the three construction requests (open the AES
provider, set the ECB chaining mode, generate the symmetric key) with success; a
length outside 16, 24, 32 returns null and leaves the provider state, its call log
included, as it was; a non-null result points to a live object whose provider handle
and key handle are both non-null and open. -/
theorem create_nonnull_iff (P : Provider) (w : World)
    (keyArray keyArrayOffset keyArrayLength : Int) :
    ((AesBrypt_create P w keyArray keyArrayOffset keyArrayLength).1 ≠ 0 ↔
      ((keyArrayLength = 16 ∨ keyArrayLength = 24 ∨ keyArrayLength = 32) ∧
        openSucceeds P w = true ∧ setModeSucceeds P w = true ∧
        generateKeySucceeds P w keyArray keyArrayOffset keyArrayLength = true)) ∧
    (¬ (keyArrayLength = 16 ∨ keyArrayLength = 24 ∨ keyArrayLength = 32) →
      (AesBrypt_create P w keyArray keyArrayOffset keyArrayLength).1 = 0 ∧
      (AesBrypt_create P w keyArray keyArrayOffset keyArrayLength).2.prov = w.prov) ∧
    ((AesBrypt_create P w keyArray keyArrayOffset keyArrayLength).1 ≠ 0 →
      ∃ c : AesBcrypt,
        live (AesBrypt_create P w keyArray keyArrayOffset keyArrayLength).2
          (AesBrypt_create P w keyArray keyArrayOffset keyArrayLength).1 = some c ∧
        c.m_algorithm ≠ 0 ∧
        algOpen (AesBrypt_create P w keyArray keyArrayOffset keyArrayLength).2.prov
          c.m_algorithm = true ∧
        c.m_key ≠ 0 ∧
        keyOpen (AesBrypt_create P w keyArray keyArrayOffset keyArrayLength).2.prov
          c.m_key = true) := by
  by_cases hlen : keyArrayLength = 16 ∨ keyArrayLength = 24 ∨ keyArrayLength = 32
  · cases h1 : openSucceeds P w
    · rw [create_open_fails P w _ _ _ hlen h1]
      exact ⟨by simp, fun h => absurd hlen h, by simp⟩
    · cases h2 : setModeSucceeds P w
      · rw [create_setMode_fails P w _ _ _ hlen h1 h2]
        exact ⟨by simp, fun h => absurd hlen h, by simp⟩
      · cases h3 : generateKeySucceeds P w keyArray keyArrayOffset keyArrayLength
        · rw [create_generateKey_fails P w _ _ _ hlen h1 h2 h3]
          exact ⟨by simp, fun h => absurd hlen h, by simp⟩
        · rw [create_succeeds P w _ _ _ hlen h1 h2 h3]
          unfold generateKeySucceeds at h3
          have hg := generateKey_of_success P _ w.mem (freshHandle w.prov) 0 0 0
            (keyArray + keyArrayOffset) (toULONG keyArrayLength) 0 h3
          refine ⟨?_, ?_, ?_⟩
          · simp [hlen, freshAddr_ne_zero]
          · intro h; exact absurd hlen h
          · intro _
            unfold openSucceeds at h1
            refine ⟨_, live_head _ _ _ _ _ _, ?_, ?_, ?_, ?_⟩
            · exact freshHandle_ne_zero _
            · rw [hg.2]
              simp [algOpen, BCryptSetProperty, openAlgorithm_of_success P w.prov 0 0 0 h1]
            · rw [hg.1]; exact freshHandle_ne_zero _
            · rw [hg.2, hg.1]
              simp [keyOpen]
  · rw [create_invalid_length P w _ _ _ hlen]
    simp [hlen, failedCreate]

/-- C1 at a concrete input: a 16-byte key and a provider whose requests all succeed. -/
theorem create_nonnull_iff_witness :
    (AesBrypt_create toyProvider sampleWorld 0 0 16).1 ≠ 0 ∧
    (AesBrypt_create toyProvider sampleWorld 0 0 17).1 = 0 :=
  ⟨(create_nonnull_iff toyProvider sampleWorld 0 0 16).1.mpr
      ⟨by decide, by decide, by decide, by decide⟩,
    ((create_nonnull_iff toyProvider sampleWorld 0 0 17).2.1 (by decide)).1⟩

/-- C2: `AesBcrypt_encrpytBlock` called with a null instance returns 0, sends nothing
to the provider (its call log is unchanged) and leaves every byte of memory, so every
byte of the output buffer, unchanged. -/
theorem encryptBlock_null (P : Provider) (w : World)
    (inputArray inputOffset inputLength outputArray outputOffset : Int) :
    (AesBcrypt_encrpytBlock P w 0 inputArray inputOffset inputLength outputArray
      outputOffset).1 = 0 ∧
    (AesBcrypt_encrpytBlock P w 0 inputArray inputOffset inputLength outputArray
      outputOffset).2.prov.log = w.prov.log ∧
    (∀ a : Int, (AesBcrypt_encrpytBlock P w 0 inputArray inputOffset inputLength outputArray
      outputOffset).2.mem a = w.mem a) ∧
    (AesBcrypt_encrpytBlock P w 0 inputArray inputOffset inputLength outputArray
      outputOffset).2.heap = w.heap := by
  rw [encrypt_null_state]
  simp

/-- C3: when the key length is valid and one of the three provider requests of
`AesBrypt_create` is answered with failure, the function returns null, and the tables
of open provider handles and open key handles, and the live objects, are what they
were before the call: every handle acquired during the call has been released. -/
theorem create_failure_releases (P : Provider) (w : World)
    (keyArray keyArrayOffset keyArrayLength : Int)
    (hlen : keyArrayLength = 16 ∨ keyArrayLength = 24 ∨ keyArrayLength = 32)
    (hfail : ¬ (openSucceeds P w = true ∧ setModeSucceeds P w = true ∧
      generateKeySucceeds P w keyArray keyArrayOffset keyArrayLength = true)) :
    (AesBrypt_create P w keyArray keyArrayOffset keyArrayLength).1 = 0 ∧
    (AesBrypt_create P w keyArray keyArrayOffset keyArrayLength).2.prov.algs = w.prov.algs ∧
    (AesBrypt_create P w keyArray keyArrayOffset keyArrayLength).2.prov.keys = w.prov.keys ∧
    (AesBrypt_create P w keyArray keyArrayOffset keyArrayLength).2.heap = w.heap := by
  have hfresh := filter_absent_nat w.prov.algs (freshHandle w.prov)
    (fun e he => freshHandle_not_alg w.prov e he)
  cases h1 : openSucceeds P w
  · rw [create_open_fails P w _ _ _ hlen h1]
    unfold openSucceeds at h1
    simp [failedCreate, openAlgorithm_of_failure P w.prov 0 0 0 h1]
  · cases h2 : setModeSucceeds P w
    · rw [create_setMode_fails P w _ _ _ hlen h1 h2]
      unfold openSucceeds at h1
      simp [failedCreate, BCryptCloseAlgorithmProvider, BCryptSetProperty,
        openAlgorithm_of_success P w.prov 0 0 0 h1, hfresh]
    · cases h3 : generateKeySucceeds P w keyArray keyArrayOffset keyArrayLength
      · rw [create_generateKey_fails P w _ _ _ hlen h1 h2 h3]
        unfold openSucceeds at h1
        unfold generateKeySucceeds at h3
        rw [generateKey_of_failure P _ w.mem _ _ _ _ _ _ _ h3]
        simp [failedCreate, BCryptCloseAlgorithmProvider, BCryptSetProperty,
          openAlgorithm_of_success P w.prov 0 0 0 h1, hfresh]
      · exact absurd ⟨h1, h2, h3⟩ hfail

/-- C3 at a concrete input: key generation fails for a 16-byte key. -/
theorem create_failure_releases_witness :
    ((16 : Int) = 16 ∨ (16 : Int) = 24 ∨ (16 : Int) = 32) ∧
    ¬ (openSucceeds noKeyProvider sampleWorld = true ∧
      setModeSucceeds noKeyProvider sampleWorld = true ∧
      generateKeySucceeds noKeyProvider sampleWorld 0 0 16 = true) ∧
    (AesBrypt_create noKeyProvider sampleWorld 0 0 16).1 = 0 ∧
    (AesBrypt_create noKeyProvider sampleWorld 0 0 16).2.prov.algs = sampleWorld.prov.algs ∧
    (AesBrypt_create noKeyProvider sampleWorld 0 0 16).2.prov.keys = sampleWorld.prov.keys ∧
    (AesBrypt_create noKeyProvider sampleWorld 0 0 16).2.heap = sampleWorld.heap :=
  ⟨by decide, by decide,
    create_failure_releases noKeyProvider sampleWorld 0 0 16 (by decide) (by decide)⟩

/-- C4: for an instance returned by a successful `AesBrypt_create`, used after any
number of `AesBcrypt_encrpytBlock` calls, and for every 16-byte input region,
`AesBcrypt_encrpytBlock` returns exactly 16 when the provider is an unpadded ECB
transform; in general, for a non-null instance whose encrypt request succeeds, the
result is the byte count the provider stored, converted from `ULONG` to `int`. -/
theorem encryptBlock_returns_16 (P : Provider) (w : World)
    (keyArray keyArrayOffset keyArrayLength : Int) (calls : List EncryptArgs)
    (inputArray inputOffset outputArray outputOffset : Int)
    (hcreate : (AesBrypt_create P w keyArray keyArrayOffset keyArrayLength).1 ≠ 0)
    (hecb : UnpaddedEcb P) :
    (AesBcrypt_encrpytBlock P
      (runEncrypts P (AesBrypt_create P w keyArray keyArrayOffset keyArrayLength).2 calls)
      (AesBrypt_create P w keyArray keyArrayOffset keyArrayLength).1
      inputArray inputOffset 16 outputArray outputOffset).1 = 16 ∧
    (∀ (v : World) (context : Nat) (inputLength : Int), context ≠ 0 →
      NT_SUCCESS (encryptOutcome P v context inputArray inputOffset inputLength).status
        = true →
      (AesBcrypt_encrpytBlock P v context inputArray inputOffset inputLength outputArray
        outputOffset).1 =
        toInt32 (encryptOutcome P v context inputArray inputOffset inputLength).cbResult) := by
  constructor
  · rw [encryptBlock_nonnull P _ _ _ _ _ _ _ hcreate]
    have hfr := runEncrypts_frame P calls
      (AesBrypt_create P w keyArray keyArrayOffset keyArrayLength).2
    have hkey := create_key_bound P w keyArray keyArrayOffset keyArrayLength hcreate
    have hout : encryptOutcome P
        (runEncrypts P (AesBrypt_create P w keyArray keyArrayOffset keyArrayLength).2 calls)
        (AesBrypt_create P w keyArray keyArrayOffset keyArrayLength).1
        inputArray inputOffset 16 =
        P.transform
          (deref (AesBrypt_create P w keyArray keyArrayOffset keyArrayLength).2
            (AesBrypt_create P w keyArray keyArrayOffset keyArrayLength).1).m_key
          (some (readBytes w.mem (keyArray + keyArrayOffset) (toULONG keyArrayLength)))
          (readBytes (runEncrypts P
            (AesBrypt_create P w keyArray keyArrayOffset keyArrayLength).2 calls).mem
            (inputArray + inputOffset) 16) := by
      unfold encryptOutcome
      rw [deref_congr _ _ _ hfr.1 hfr.2.1, keySecret_congr _ _ _ hfr.2.2.2, hkey,
        toULONG_sixteen]
    have hP := hecb
      (deref (AesBrypt_create P w keyArray keyArrayOffset keyArrayLength).2
        (AesBrypt_create P w keyArray keyArrayOffset keyArrayLength).1).m_key
      (readBytes w.mem (keyArray + keyArrayOffset) (toULONG keyArrayLength))
      (readBytes (runEncrypts P
        (AesBrypt_create P w keyArray keyArrayOffset keyArrayLength).2 calls).mem
        (inputArray + inputOffset) 16)
      (by rw [readBytes_length]; decide) (by rw [readBytes_length])
    rw [readBytes_length] at hP
    simp only [hout, hP.1, hP.2, if_true]
    decide
  · intro v context inputLength hctx hs
    rw [encryptBlock_nonnull P v context _ _ _ _ _ hctx]
    simp only [hs, if_true]

/-- C4 at a concrete input: a 16-byte key, one encryption in between, a 16-byte block. -/
theorem encryptBlock_returns_16_witness :
    (AesBrypt_create toyProvider sampleWorld 0 0 16).1 ≠ 0 ∧
    (AesBcrypt_encrpytBlock toyProvider
      (runEncrypts toyProvider (AesBrypt_create toyProvider sampleWorld 0 0 16).2
        [{ context := 1, inputArray := 0, inputOffset := 0, inputLength := 16,
           outputArray := 32, outputOffset := 16 }])
      (AesBrypt_create toyProvider sampleWorld 0 0 16).1 32 0 16 64 0).1 = 16 :=
  ⟨by decide,
    (encryptBlock_returns_16 toyProvider sampleWorld 0 0 16
      [{ context := 1, inputArray := 0, inputOffset := 0, inputLength := 16,
         outputArray := 32, outputOffset := 16 }] 32 0 64 0 (by decide)
      toyProvider_unpaddedEcb).1⟩

/-- C5: for a non-null instance, when the provider answers the encrypt request with a
negative `NTSTATUS`, `AesBcrypt_encrpytBlock` returns 0, whatever byte count the
provider stored. -/
theorem encryptBlock_failure_returns_zero (P : Provider) (w : World) (context : Nat)
    (inputArray inputOffset inputLength outputArray outputOffset : Int)
    (hctx : context ≠ 0)
    (hfail : (encryptOutcome P w context inputArray inputOffset inputLength).status < 0) :
    (AesBcrypt_encrpytBlock P w context inputArray inputOffset inputLength outputArray
      outputOffset).1 = 0 := by
  rw [encryptBlock_nonnull P w context _ _ _ _ _ hctx]
  have hs : ¬ NT_SUCCESS (encryptOutcome P w context inputArray inputOffset
      inputLength).status = true := by
    simp only [NT_SUCCESS, decide_eq_true_eq]
    omega
  simp only [if_neg hs]

/-- C5 at a concrete input: the transform fails after storing a byte count of 16. -/
theorem encryptBlock_failure_returns_zero_witness :
    (1 : Nat) ≠ 0 ∧
    (encryptOutcome failingProvider (AesBrypt_create failingProvider sampleWorld 0 0 16).2 1
      0 32 16).status < 0 ∧
    (encryptOutcome failingProvider (AesBrypt_create failingProvider sampleWorld 0 0 16).2 1
      0 32 16).cbResult = 16 ∧
    (AesBcrypt_encrpytBlock failingProvider
      (AesBrypt_create failingProvider sampleWorld 0 0 16).2 1 0 32 16 0 64).1 = 0 :=
  ⟨by decide, by decide, by decide,
    encryptBlock_failure_returns_zero failingProvider
      (AesBrypt_create failingProvider sampleWorld 0 0 16).2 1 0 32 16 0 64
      (by decide) (by decide)⟩

/-- C6: for a key buffer `buf` stored at `keyArray`, a length of 16, 24 or 32 and an
offset with `0 ≤ offset` and `offset + length ≤ buf.length`, the secret that
`AesBrypt_create` hands to the provider's key generation (reached when the open and
the chaining-mode requests succeed) is exactly `buf[offset, offset + length)`, and that
is the secret of the key handle of the instance returned; memory, so the key buffer,
is unchanged by the call; and a memory that holds the same bytes in that range gives
the same result and the same provider state, so bytes outside the range do not affect
the derived key. -/
theorem create_key_material (P : Provider) (w : World)
    (keyArray keyArrayOffset keyArrayLength : Int) (buf : List Nat)
    (hlen : keyArrayLength = 16 ∨ keyArrayLength = 24 ∨ keyArrayLength = 32)
    (hoff : 0 ≤ keyArrayOffset) (hin : keyArrayOffset + keyArrayLength ≤ (buf.length : Int))
    (hbuf : readBytes w.mem keyArray buf.length = buf) :
    (openSucceeds P w = true → setModeSucceeds P w = true →
      (AesBrypt_create P w keyArray keyArrayOffset keyArrayLength).2.prov.log =
        w.prov.log ++
          [Call.openAlgorithmProvider 0 0, Call.setChainingModeECB (freshHandle w.prov) 0,
            Call.generateSymmetricKey (freshHandle w.prov) 0 0 (keyArray + keyArrayOffset)
              keyArrayLength.toNat
              ((buf.drop keyArrayOffset.toNat).take keyArrayLength.toNat) 0] ++
          (if generateKeySucceeds P w keyArray keyArrayOffset keyArrayLength = true then []
            else [Call.closeAlgorithmProvider (freshHandle w.prov) 0])) ∧
    ((AesBrypt_create P w keyArray keyArrayOffset keyArrayLength).1 ≠ 0 →
      keySecret (AesBrypt_create P w keyArray keyArrayOffset keyArrayLength).2.prov
        (deref (AesBrypt_create P w keyArray keyArrayOffset keyArrayLength).2
          (AesBrypt_create P w keyArray keyArrayOffset keyArrayLength).1).m_key =
        some ((buf.drop keyArrayOffset.toNat).take keyArrayLength.toNat)) ∧
    (∀ a : Int, (AesBrypt_create P w keyArray keyArrayOffset keyArrayLength).2.mem a =
      w.mem a) ∧
    (∀ m : Int → Nat,
      (∀ i : Nat, i < keyArrayLength.toNat →
        m (keyArray + keyArrayOffset + (i : Int)) =
          w.mem (keyArray + keyArrayOffset + (i : Int))) →
      (AesBrypt_create P { mem := m, heap := w.heap, freed := w.freed, prov := w.prov }
          keyArray keyArrayOffset keyArrayLength).1 =
        (AesBrypt_create P w keyArray keyArrayOffset keyArrayLength).1 ∧
      (AesBrypt_create P { mem := m, heap := w.heap, freed := w.freed, prov := w.prov }
          keyArray keyArrayOffset keyArrayLength).2.prov =
        (AesBrypt_create P w keyArray keyArrayOffset keyArrayLength).2.prov) := by
  have hu : toULONG keyArrayLength = keyArrayLength.toNat := by
    rcases hlen with h | h | h <;> subst h <;> decide
  have hpos : 0 ≤ keyArrayLength := by
    rcases hlen with h | h | h <;> subst h <;> decide
  have hslice : readBytes w.mem (keyArray + keyArrayOffset) keyArrayLength.toNat =
      (buf.drop keyArrayOffset.toNat).take keyArrayLength.toNat := by
    have h := readBytes_slice w.mem keyArray buf keyArrayOffset.toNat keyArrayLength.toNat
      hbuf (by omega)
    rw [Int.toNat_of_nonneg hoff] at h
    exact h
  refine ⟨?_, ?_, ?_, ?_⟩
  · intro h1 h2
    rw [create_log P w _ _ _ hlen h1 h2, hu, hslice]
  · intro hnn
    rw [create_key_bound P w _ _ _ hnn, hu, hslice]
  · intro a
    rw [create_mem]
  · intro m hm
    have hr := create_mem_irrelevant P w keyArray keyArrayOffset keyArrayLength m
      (by rw [hu]; exact readBytes_congr _ _ _ _ hm)
    exact ⟨hr.1, hr.2.1⟩

/-- C6 at a concrete input: the first 8 and the last 8 bytes of a 32-byte buffer
are not part of the 16-byte key taken at offset 8. -/
theorem create_key_material_witness :
    ((16 : Int) = 16 ∨ (16 : Int) = 24 ∨ (16 : Int) = 32) ∧
    (AesBrypt_create toyProvider sampleWorld 0 8 16).2.prov.log =
      [Call.openAlgorithmProvider 0 0, Call.setChainingModeECB 1 0,
        Call.generateSymmetricKey 1 0 0 8 16
          [8, 9, 10, 11, 12, 13, 14, 15, 0, 0, 0, 0, 0, 0, 0, 0] 0] :=
  ⟨by decide,
    (create_key_material toyProvider sampleWorld 0 8 16
      [0, 1, 2, 3, 4, 5, 6, 7, 8, 9, 10, 11, 12, 13, 14, 15, 0, 0, 0, 0, 0, 0, 0, 0,
        0, 0, 0, 0, 0, 0, 0, 0]
      (by decide) (by decide) (by decide) (by decide)).1 (by decide) (by decide)⟩

/-- C7, the claim as stated fails for a negative `inputLength`: with `inputLength = -16`
the request sent to the provider asks for 4294967280 bytes (the `int` converted to
`ULONG`), and a byte outside the (empty) region from `outputOffset` to
`outputOffset + inputLength` is changed. -/
theorem encryptBlock_negative_length_counterexample :
    (AesBrypt_create blockProvider sampleWorld 0 0 16).1 = 1 ∧
    (AesBcrypt_encrpytBlock blockProvider
      (AesBrypt_create blockProvider sampleWorld 0 0 16).2 1 0 32 (-16) 0 64).2.prov.log =
      (AesBrypt_create blockProvider sampleWorld 0 0 16).2.prov.log ++
        [Call.encrypt 2 32 4294967280 0 0 0 64 4294967280 0] ∧
    ¬ (∀ a : Int, ¬ ((0 : Int) + 64 ≤ a ∧ a < 0 + 64 + (-16)) →
      (AesBcrypt_encrpytBlock blockProvider
        (AesBrypt_create blockProvider sampleWorld 0 0 16).2 1 0 32 (-16) 0 64).2.mem a =
      (AesBrypt_create blockProvider sampleWorld 0 0 16).2.mem a) := by
  refine ⟨by decide, by decide, ?_⟩
  intro h
  have h64 := h 64 (by decide)
  revert h64
  decide

/-- C7, amended: for a non-null instance and every `inputLength`,
`AesBcrypt_encrpytBlock` sends exactly one request to the provider, an encrypt request
with the key handle read from the instance, no padding info, no IV and no flags, whose
input is the `n` bytes at `inputArray + inputOffset` and whose output region is the `n`
bytes at `outputArray + outputOffset`, where `n` is `inputLength` converted to `ULONG`;
memory outside that output region is unchanged; and `n = inputLength` whenever
`0 ≤ inputLength` (also when it is not a multiple of 16). -/
theorem encryptBlock_request (P : Provider) (w : World) (context : Nat)
    (inputArray inputOffset inputLength outputArray outputOffset : Int)
    (hctx : context ≠ 0) :
    (AesBcrypt_encrpytBlock P w context inputArray inputOffset inputLength outputArray
      outputOffset).2.prov.log =
      w.prov.log ++
        [Call.encrypt (deref w context).m_key (inputArray + inputOffset) (toULONG inputLength)
          0 0 0 (outputArray + outputOffset) (toULONG inputLength) 0] ∧
    (∀ a : Int,
      ¬ (outputArray + outputOffset ≤ a ∧
          a < outputArray + outputOffset + (toULONG inputLength : Int)) →
      (AesBcrypt_encrpytBlock P w context inputArray inputOffset inputLength outputArray
        outputOffset).2.mem a = w.mem a) ∧
    (∀ i : Nat,
      i < ((encryptOutcome P w context inputArray inputOffset inputLength).written.take
        (toULONG inputLength)).length →
      (AesBcrypt_encrpytBlock P w context inputArray inputOffset inputLength outputArray
        outputOffset).2.mem (outputArray + outputOffset + (i : Int)) =
        (encryptOutcome P w context inputArray inputOffset inputLength).written.getD i 0) ∧
    (0 ≤ inputLength → inputLength < 2147483648 →
      ((toULONG inputLength : Nat) : Int) = inputLength ∧
      (readBytes w.mem (inputArray + inputOffset) (toULONG inputLength)).length =
        inputLength.toNat ∧
      ∀ a : Int,
        ¬ (outputArray + outputOffset ≤ a ∧ a < outputArray + outputOffset + inputLength) →
        (AesBcrypt_encrpytBlock P w context inputArray inputOffset inputLength outputArray
          outputOffset).2.mem a = w.mem a) := by
  rw [encryptBlock_nonnull P w context _ _ _ _ _ hctx]
  have hout : ∀ a : Int,
      ¬ (outputArray + outputOffset ≤ a ∧
          a < outputArray + outputOffset + (toULONG inputLength : Int)) →
      writeBytes w.mem (outputArray + outputOffset)
        ((encryptOutcome P w context inputArray inputOffset inputLength).written.take
          (toULONG inputLength)) a = w.mem a := by
    intro a ha
    apply writeBytes_outside
    intro hin
    apply ha
    have hl : ((encryptOutcome P w context inputArray inputOffset inputLength).written.take
        (toULONG inputLength)).length ≤ toULONG inputLength := by
      rw [List.length_take]; exact Nat.min_le_left _ _
    constructor
    · exact hin.1
    · have := hin.2
      omega
  refine ⟨rfl, hout, ?_, ?_⟩
  · intro i hi
    show writeBytes _ _ _ _ = _
    rw [writeBytes_inside _ _ _ _ hi]
    rw [List.length_take] at hi
    have hi1 : i < toULONG inputLength := lt_of_lt_of_le hi (Nat.min_le_left _ _)
    simp [List.getD, List.getElem?_take, hi1]
  · intro h0 h1
    have hn := toULONG_of_nonneg inputLength h0 (by omega)
    refine ⟨hn, ?_, ?_⟩
    · rw [readBytes_length]
      omega
    · intro a ha
      apply hout
      rw [hn]
      exact ha

/-- C7 amended, at a concrete input: a 20-byte request on a live instance. -/
theorem encryptBlock_request_witness :
    (1 : Nat) ≠ 0 ∧
    (AesBcrypt_encrpytBlock toyProvider
      (AesBrypt_create toyProvider sampleWorld 0 0 16).2 1 0 32 20 0 64).2.prov.log =
      (AesBrypt_create toyProvider sampleWorld 0 0 16).2.prov.log ++
        [Call.encrypt 2 32 20 0 0 0 64 20 0] :=
  ⟨by decide,
    (encryptBlock_request toyProvider (AesBrypt_create toyProvider sampleWorld 0 0 16).2 1
      0 32 20 0 64 (by decide)).1⟩

/-- C8: `AesBcrypt_release` on a live instance sends the provider a destroy-key request
for its key handle and then a close request for its provider handle, each only when the
handle is non-null, and nothing else; afterwards a non-null key handle and a non-null
provider handle of the instance are no longer open and no live object is left at the
address; every other key handle, every other provider handle and every other live
object is as before, and memory is unchanged; on a null pointer the state is unchanged. -/
theorem release_frees (w : World) (p : Nat) (c : AesBcrypt) (hp : p ≠ 0)
    (hlive : live w p = some c) :
    (AesBcrypt_release w p).prov.log =
      w.prov.log ++ (if c.m_key ≠ 0 then [Call.destroyKey c.m_key] else []) ++
        (if c.m_algorithm ≠ 0 then [Call.closeAlgorithmProvider c.m_algorithm 0] else []) ∧
    (c.m_key ≠ 0 → keyOpen (AesBcrypt_release w p).prov c.m_key = false) ∧
    (c.m_algorithm ≠ 0 → algOpen (AesBcrypt_release w p).prov c.m_algorithm = false) ∧
    live (AesBcrypt_release w p) p = none ∧
    (∀ h : Nat, h ≠ c.m_key →
      keySecret (AesBcrypt_release w p).prov h = keySecret w.prov h) ∧
    (∀ h : Nat, h ≠ c.m_algorithm →
      algOpen (AesBcrypt_release w p).prov h = algOpen w.prov h) ∧
    (∀ q : Nat, q ≠ p → live (AesBcrypt_release w p) q = live w q) ∧
    (∀ a : Int, (AesBcrypt_release w p).mem a = w.mem a) ∧
    AesBcrypt_release w 0 = w := by
  rw [release_nonnull w p hp]
  have hd := deref_of_live w p c hlive
  refine ⟨?_, ?_, ?_, ?_, ?_, ?_, ?_, ?_, ?_⟩
  · simp only [delete, hd, destructor_log]
  · intro hk
    simp only [delete, hd, keyOpen, destructor_keys, if_pos hk]
    simp
  · intro ha
    simp only [delete, hd, algOpen, destructor_algs, if_pos ha]
    simp
  · simp only [delete, live, find_filter_self]
    rfl
  · intro h hh
    simp only [delete, hd, keySecret, destructor_keys]
    by_cases hk : c.m_key = 0
    · simp [hk]
    · rw [if_pos hk, find_filter_other _ _ _ hh]
  · intro h hh
    simp only [delete, hd, algOpen, destructor_algs]
    by_cases ha : c.m_algorithm = 0
    · simp [ha]
    · rw [if_pos ha]
      simp [List.mem_filter, hh]
  · intro q hq
    simp only [delete, live, find_filter_other _ _ _ hq]
  · intro a
    rfl
  · simp [AesBcrypt_release]

/-- C8 at a concrete input: releasing the instance a successful create returned. -/
theorem release_frees_witness :
    (1 : Nat) ≠ 0 ∧
    live (AesBrypt_create toyProvider sampleWorld 0 0 16).2 1 =
      some { m_algorithm := 1, m_key := 2 } ∧
    (AesBcrypt_release (AesBrypt_create toyProvider sampleWorld 0 0 16).2 1).prov.log =
      (AesBrypt_create toyProvider sampleWorld 0 0 16).2.prov.log ++
        [Call.destroyKey 2, Call.closeAlgorithmProvider 1 0] ∧
    live (AesBcrypt_release (AesBrypt_create toyProvider sampleWorld 0 0 16).2 1) 1 = none :=
  ⟨by decide, by decide,
    (release_frees (AesBrypt_create toyProvider sampleWorld 0 0 16).2 1
      { m_algorithm := 1, m_key := 2 } (by decide) (by decide)).1,
    (release_frees (AesBrypt_create toyProvider sampleWorld 0 0 16).2 1
      { m_algorithm := 1, m_key := 2 } (by decide) (by decide)).2.2.2.1⟩

/-- C9: `AesBcrypt_encrpytBlock` leaves the instance (the object and the provider's
tables) unchanged, so for a non-null instance, two calls with the same 16 input bytes,
with any number of other `AesBcrypt_encrpytBlock` calls in between, return the same
value and store the same ciphertext bytes at their output regions; when the transform
produces a whole 16-byte block the two output regions are equal. -/
theorem encryptBlock_deterministic (P : Provider) (w w1 w2 w3 : World) (r1 r2 : Int)
    (context : Nat) (calls : List EncryptArgs)
    (inputArray1 inputOffset1 outputArray1 outputOffset1 : Int)
    (inputArray2 inputOffset2 outputArray2 outputOffset2 : Int)
    (hctx : context ≠ 0)
    (hfirst : AesBcrypt_encrpytBlock P w context inputArray1 inputOffset1 16 outputArray1
      outputOffset1 = (r1, w1))
    (hbetween : runEncrypts P w1 calls = w2)
    (hsecond : AesBcrypt_encrpytBlock P w2 context inputArray2 inputOffset2 16 outputArray2
      outputOffset2 = (r2, w3))
    (hsame : readBytes w.mem (inputArray1 + inputOffset1) 16 =
      readBytes w2.mem (inputArray2 + inputOffset2) 16) :
    (deref w1 context = deref w context ∧ deref w2 context = deref w context ∧
      deref w3 context = deref w context) ∧
    (w3.heap = w.heap ∧ w3.prov.algs = w.prov.algs ∧ w3.prov.keys = w.prov.keys) ∧
    r1 = r2 ∧
    (∀ i : Nat,
      i < ((encryptOutcome P w context inputArray1 inputOffset1 16).written.take 16).length →
      w1.mem (outputArray1 + outputOffset1 + (i : Int)) =
        (encryptOutcome P w context inputArray1 inputOffset1 16).written.getD i 0 ∧
      w3.mem (outputArray2 + outputOffset2 + (i : Int)) =
        (encryptOutcome P w context inputArray1 inputOffset1 16).written.getD i 0) ∧
    ((encryptOutcome P w context inputArray1 inputOffset1 16).written.length = 16 →
      readBytes w1.mem (outputArray1 + outputOffset1) 16 =
        readBytes w3.mem (outputArray2 + outputOffset2) 16) := by
  have hf1 := encryptBlock_frame P w context inputArray1 inputOffset1 16 outputArray1
    outputOffset1
  rw [hfirst] at hf1
  have hfb := runEncrypts_frame P calls w1
  rw [hbetween] at hfb
  have hf2 := encryptBlock_frame P w2 context inputArray2 inputOffset2 16 outputArray2
    outputOffset2
  rw [hsecond] at hf2
  simp only at hf1 hf2
  have h2h : w2.heap = w.heap := hfb.1.trans hf1.1
  have h2f : w2.freed = w.freed := hfb.2.1.trans hf1.2.1
  have h2k : w2.prov.keys = w.prov.keys := hfb.2.2.2.trans hf1.2.2.2
  have hout : encryptOutcome P w2 context inputArray2 inputOffset2 16 =
      encryptOutcome P w context inputArray1 inputOffset1 16 :=
    encryptOutcome_congr P w2 w context _ _ _ _ 16 h2h h2f h2k
      (by rw [toULONG_sixteen]; exact hsame.symm)
  have e1 := encryptBlock_nonnull P w context inputArray1 inputOffset1 16 outputArray1
    outputOffset1 hctx
  have e2 := encryptBlock_nonnull P w2 context inputArray2 inputOffset2 16 outputArray2
    outputOffset2 hctx
  rw [hfirst] at e1
  rw [hsecond, hout] at e2
  have hr1 := congrArg Prod.fst e1
  have hr2 := congrArg Prod.fst e2
  have hw1 := congrArg (fun x => x.2.mem) e1
  have hw3 := congrArg (fun x => x.2.mem) e2
  simp only at hr1 hr2 hw1 hw3
  have hbytes : ∀ i : Nat,
      i < ((encryptOutcome P w context inputArray1 inputOffset1 16).written.take 16).length →
      w1.mem (outputArray1 + outputOffset1 + (i : Int)) =
        (encryptOutcome P w context inputArray1 inputOffset1 16).written.getD i 0 ∧
      w3.mem (outputArray2 + outputOffset2 + (i : Int)) =
        (encryptOutcome P w context inputArray1 inputOffset1 16).written.getD i 0 := by
    intro i hi
    have hi16 : i < 16 := by
      rw [List.length_take] at hi
      exact lt_of_lt_of_le hi (Nat.min_le_left _ _)
    have hget : ((encryptOutcome P w context inputArray1 inputOffset1 16).written.take
        (toULONG 16)).getD i 0 =
        (encryptOutcome P w context inputArray1 inputOffset1 16).written.getD i 0 := by
      rw [toULONG_sixteen]
      simp [List.getD, List.getElem?_take, hi16]
    have hi2 : i < ((encryptOutcome P w context inputArray1 inputOffset1 16).written.take
        (toULONG 16)).length := by rw [toULONG_sixteen]; exact hi
    rw [hw1, hw3, writeBytes_inside _ _ _ _ hi2, writeBytes_inside _ _ _ _ hi2, hget]
    exact ⟨rfl, rfl⟩
  refine ⟨⟨deref_congr _ _ _ hf1.1 hf1.2.1, deref_congr _ _ _ h2h h2f,
    deref_congr _ _ _ (hf2.1.trans h2h) (hf2.2.1.trans h2f)⟩,
    ⟨hf2.1.trans h2h, hf2.2.2.1.trans (hfb.2.2.1.trans hf1.2.2.1), hf2.2.2.2.trans h2k⟩,
    hr1.trans hr2.symm, hbytes, ?_⟩
  intro hlen
  apply List.ext_getElem
  · rw [readBytes_length, readBytes_length]
  · intro i h1 h2
    have hi16 : i < 16 := by rw [readBytes_length] at h1; exact h1
    have hb := hbytes i (by rw [List.length_take, hlen]; exact hi16)
    rw [readBytes_getElem, readBytes_getElem, hb.1, hb.2]

/-- C9 at a concrete input: the same block encrypted twice on one instance, with an
encryption of the key bytes in between, into two different output regions. -/
theorem encryptBlock_deterministic_witness :
    (AesBcrypt_encrpytBlock toyProvider
      (AesBrypt_create toyProvider sampleWorld 0 0 16).2 1 0 32 16 0 64).1 =
    (AesBcrypt_encrpytBlock toyProvider
      (runEncrypts toyProvider
        (AesBcrypt_encrpytBlock toyProvider
          (AesBrypt_create toyProvider sampleWorld 0 0 16).2 1 0 32 16 0 64).2
        [{ context := 1, inputArray := 0, inputOffset := 0, inputLength := 16,
           outputArray := 96, outputOffset := 0 }]) 1 32 0 16 128 0).1 :=
  (encryptBlock_deterministic toyProvider
    (AesBrypt_create toyProvider sampleWorld 0 0 16).2 _ _ _ _ _ 1
    [{ context := 1, inputArray := 0, inputOffset := 0, inputLength := 16,
       outputArray := 96, outputOffset := 0 }]
    0 32 0 64 32 0 128 0 (by decide) rfl rfl rfl (by decide)).2.2.1

/-- C10, the claim as stated fails: a further use is not detected. After a create that
returned reference 1 with key handle 2 and a release of reference 1, no object is live
at 1 and key handle 2 is closed, yet `AesBcrypt_encrpytBlock` on reference 1 sends the
provider an encrypt request, whatever field values `g` the read through the released
reference finds; when the freed storage still reads as the object's last values, the
request carries the closed key handle 2. -/
theorem use_after_release_counterexample :
    (AesBrypt_create toyProvider (worldReading { m_algorithm := 1, m_key := 2 }) 0 0 16).1
      = 1 ∧
    live (AesBrypt_create toyProvider (worldReading { m_algorithm := 1, m_key := 2 })
      0 0 16).2 1 = some { m_algorithm := 1, m_key := 2 } ∧
    live (AesBcrypt_release (AesBrypt_create toyProvider
      (worldReading { m_algorithm := 1, m_key := 2 }) 0 0 16).2 1) 1 = none ∧
    keyOpen (AesBcrypt_release (AesBrypt_create toyProvider
      (worldReading { m_algorithm := 1, m_key := 2 }) 0 0 16).2 1).prov 2 = false ∧
    (AesBcrypt_encrpytBlock toyProvider
      (AesBcrypt_release (AesBrypt_create toyProvider
        (worldReading { m_algorithm := 1, m_key := 2 }) 0 0 16).2 1)
      1 0 32 16 0 64).2.prov.log =
      [Call.openAlgorithmProvider 0 0, Call.setChainingModeECB 1 0,
        Call.generateSymmetricKey 1 0 0 0 16
          [0, 1, 2, 3, 4, 5, 6, 7, 8, 9, 10, 11, 12, 13, 14, 15] 0,
        Call.destroyKey 2, Call.closeAlgorithmProvider 1 0,
        Call.encrypt 2 32 16 0 0 0 64 16 0] ∧
    (∀ g : AesBcrypt,
      (AesBrypt_create toyProvider (worldReading g) 0 0 16).1 = 1 ∧
      live (AesBcrypt_release (AesBrypt_create toyProvider (worldReading g) 0 0 16).2 1) 1
        = none ∧
      (AesBcrypt_encrpytBlock toyProvider
        (AesBcrypt_release (AesBrypt_create toyProvider (worldReading g) 0 0 16).2 1)
        1 0 32 16 0 64).2.prov.log =
        (AesBcrypt_release (AesBrypt_create toyProvider (worldReading g) 0 0 16).2 1).prov.log
          ++ [Call.encrypt g.m_key 32 16 0 0 0 64 16 0]) := by
  refine ⟨by decide, by decide, by decide, by decide, by decide, ?_⟩
  intro g
  refine ⟨rfl, rfl, ?_⟩
  rw [encryptBlock_nonnull toyProvider _ 1 _ _ _ _ _ (by decide)]
  rfl

/-- C10, amended: after `AesBcrypt_release` on a live instance no object is live at the
address and its non-null key handle is closed, and a further `AesBcrypt_encrpytBlock`
on that reference is not detected: the wrapper rejects only the null pointer.  Before
the release the call sends the provider a request with the key handle of the instance;
right after the release it still sends one encrypt request, whose key handle is the
indeterminate value read through the released reference; and in every state, so in every later one, the call on that
reference sends one encrypt request and returns what the provider's answer dictates,
the key handle being the indeterminate value while no object is live at the address
and the key handle of the newer object once the address is in use again.  Nothing is
stated about a second `AesBcrypt_release`. -/
theorem use_after_release (P : Provider) (w : World) (p : Nat) (c : AesBcrypt)
    (inputArray inputOffset inputLength outputArray outputOffset : Int)
    (hp : p ≠ 0) (hlive : live w p = some c) :
    live (AesBcrypt_release w p) p = none ∧
    (c.m_key ≠ 0 → keyOpen (AesBcrypt_release w p).prov c.m_key = false) ∧
    (AesBcrypt_encrpytBlock P w p inputArray inputOffset inputLength outputArray
      outputOffset).2.prov.log =
      w.prov.log ++
        [Call.encrypt c.m_key (inputArray + inputOffset) (toULONG inputLength)
          0 0 0 (outputArray + outputOffset) (toULONG inputLength) 0] ∧
    (AesBcrypt_encrpytBlock P (AesBcrypt_release w p) p inputArray inputOffset inputLength
      outputArray outputOffset).2.prov.log =
      (AesBcrypt_release w p).prov.log ++
        [Call.encrypt (w.freed p).m_key (inputArray + inputOffset) (toULONG inputLength)
          0 0 0 (outputArray + outputOffset) (toULONG inputLength) 0] ∧
    (∀ v : World,
      (AesBcrypt_encrpytBlock P v p inputArray inputOffset inputLength outputArray
        outputOffset).2.prov.log =
        v.prov.log ++
          [Call.encrypt (deref v p).m_key (inputArray + inputOffset) (toULONG inputLength)
            0 0 0 (outputArray + outputOffset) (toULONG inputLength) 0] ∧
      (AesBcrypt_encrpytBlock P v p inputArray inputOffset inputLength outputArray
        outputOffset).1 =
        (if NT_SUCCESS (encryptOutcome P v p inputArray inputOffset inputLength).status
            = true then
          toInt32 (encryptOutcome P v p inputArray inputOffset inputLength).cbResult
          else 0) ∧
      (live v p = none → deref v p = v.freed p) ∧
      (∀ d : AesBcrypt, live v p = some d → deref v p = d)) := by
  have hl : live (AesBcrypt_release w p) p = none := by
    rw [release_nonnull w p hp]
    exact live_delete_self w p
  refine ⟨hl, ?_, ?_, ?_, ?_⟩
  · intro hk
    rw [release_nonnull w p hp]
    simp only [delete, deref_of_live w p c hlive, keyOpen, destructor_keys, if_pos hk]
    simp
  · rw [encryptBlock_nonnull P w p _ _ _ _ _ hp, deref_of_live w p c hlive]
  · rw [encryptBlock_nonnull P _ p _ _ _ _ _ hp, deref_of_not_live _ p hl,
      release_nonnull w p hp]
    rfl
  · intro v
    rw [encryptBlock_nonnull P v p _ _ _ _ _ hp]
    exact ⟨rfl, rfl, deref_of_not_live v p, fun d hd => deref_of_live v p d hd⟩

/-- C10 amended, at a concrete input: the instance a successful create returned, in a
state where freed storage reads as the handle values 57005 and 48879. -/
theorem use_after_release_witness :
    (1 : Nat) ≠ 0 ∧
    live (AesBrypt_create toyProvider
      (worldReading { m_algorithm := 57005, m_key := 48879 }) 0 0 16).2 1 =
      some { m_algorithm := 1, m_key := 2 } ∧
    (AesBcrypt_encrpytBlock toyProvider
      (AesBcrypt_release (AesBrypt_create toyProvider
        (worldReading { m_algorithm := 57005, m_key := 48879 }) 0 0 16).2 1)
      1 0 32 16 0 64).2.prov.log =
      (AesBcrypt_release (AesBrypt_create toyProvider
        (worldReading { m_algorithm := 57005, m_key := 48879 }) 0 0 16).2 1).prov.log ++
        [Call.encrypt 48879 32 16 0 0 0 64 16 0] :=
  ⟨by decide, by decide,
    (use_after_release toyProvider
      (AesBrypt_create toyProvider
        (worldReading { m_algorithm := 57005, m_key := 48879 }) 0 0 16).2 1
      { m_algorithm := 1, m_key := 2 } 0 32 16 0 64 (by decide) (by decide)).2.2.2.1⟩

end HazelAes
